import Mathlib

/-!
Shallow embedding of kitty `tools/cmd/icat/process_images.go`.

Pure Go functions become Lean functions; the package-level globals
(`opts`, `place`, `screen_size`, `flip`, `flop`, `remove_alpha`,
`keep_going`) become explicit environment records, and the effectful
collaborators (HTTP, filesystem, stdin, `image.DecodeConfig`, the
external renderer) become function-valued fields of those records.
Machine `int64` arithmetic that can overflow is modelled with an
explicit wrap at 2^64.
-/

/-- Two's-complement wrap of an unbounded integer into the `int64` range,
modelling Go's fixed-width addition. -/
def wrap64 (x : Int) : Int := (x + 2 ^ 63) % 2 ^ 64 - 2 ^ 63

/-- The in-memory byte source `BytesBuf` from process_images.go: a byte
slice plus a read position (Go `int64`). Bytes are modelled as `Nat`. -/
structure BytesBuf where
  data : List Nat
  pos : Int
deriving DecidableEq

/-- `BytesBuf.Seek`: switch on `whence` (0 = SeekStart, 1 = SeekCurrent,
2 = SeekEnd; anything else is an error that leaves the buffer unchanged),
then clamp the position into `[0, len(data)]` exactly as
`utils.Max(0, utils.Min(pos, len))` does. Returns the new buffer, the
returned position and the returned error (`none` = nil). -/
def BytesBuf.Seek (b : BytesBuf) (offset : Int) (whence : Int) :
    BytesBuf × Int × Option String :=
  if whence = 0 then
    let p := max 0 (min offset (b.data.length : Int))
    ({ b with pos := p }, p, none)
  else if whence = 1 then
    let p := max 0 (min (wrap64 (b.pos + offset)) (b.data.length : Int))
    ({ b with pos := p }, p, none)
  else if whence = 2 then
    let p := max 0 (min (wrap64 ((b.data.length : Int) + offset)) (b.data.length : Int))
    ({ b with pos := p }, p, none)
  else
    (b, b.pos, some "Unknown value for whence")

/-- `BytesBuf.Read` into a destination buffer of length `plen`:
`nb = min(len(p), len(data) - pos)`; if `nb = 0` the read reports EOF and
changes nothing, otherwise it copies `data[pos : pos+nb]` and advances
the position by `nb`. Returns the new buffer, the bytes read and the
returned error. -/
def BytesBuf.Read (b : BytesBuf) (plen : Nat) :
    BytesBuf × List Nat × Option String :=
  let nb : Int := min (plen : Int) ((b.data.length : Int) - b.pos)
  if nb = 0 then
    (b, [], some "EOF")
  else
    ({ b with pos := b.pos + nb }, (b.data.drop b.pos.toNat).take nb.toNat, none)

/-- `BytesBuf.Close`: drops the data and resets the position. -/
def BytesBuf.Close (_b : BytesBuf) : BytesBuf × Option String :=
  ({ data := [], pos := 0 }, none)

/-- Repeated sequential `Read` calls with the given destination-buffer
sizes; returns the concatenation of all bytes read. -/
def BytesBuf.readSeq : BytesBuf → List Nat → List Nat
  | _, [] => []
  | b, n :: rest =>
    match b.Read n with
    | (b', out, _) => out ++ BytesBuf.readSeq b' rest

/-- The resolver's work item `input_arg`: original argument, resolved
location, and whether it is to be fetched over HTTP. Go zero values are
the defaults. -/
structure input_arg where
  arg : String := ""
  value : String := ""
  is_http_url : Bool := false
deriving DecidableEq

/-- Go `strings.HasPrefix`, modelled structurally over the character
lists of the two strings. -/
def hasPrefixStr (s pre : String) : Bool := pre.data.isPrefixOf s.data

/-- `is_http_url`: an argument beginning with `https://` or `http://`. -/
def is_http_url (arg : String) : Bool :=
  hasPrefixStr arg "https://" || hasPrefixStr arg "http://"

/-- One event yielded to the `filepath.WalkDir` callback: a successful
visit of an entry (with its directory flag), a walk error on an entry
(`d` non-nil), or a root stat error (`d` nil). -/
inductive WalkEvent where
  | entry (path : String) (isDir : Bool)
  | entryErr (path : String) (e : String)
  | rootErr (e : String)
deriving DecidableEq

/-- Whether a walk event is a successful entry visit. -/
def WalkEvent.isEntry : WalkEvent → Bool
  | .entry _ _ => true
  | _ => false

/-- Outcome of `os.Stat` on a resolved local argument: an error, a
directory (with the stream of walk events its traversal produces), or a
non-directory. -/
inductive StatResult where
  | statErr (e : String)
  | dir (events : List WalkEvent)
  | notDir
deriving DecidableEq

/-- Environment for the source resolver: `url.Parse` on `file://`
arguments (error or the path component), `os.Stat`, and the MIME
classifier `utils.GuessMimeType` (an opaque collaborator per the spec). -/
structure FS where
  parse_file_url : String → Except String String
  stat : String → StatResult
  mime : String → String

/-- The `WalkDir` callback of `process_dirs`, folded over the event
stream: a successful non-directory entry whose MIME type begins with
`image/` is appended as a work item; an entry error makes the callback
return the error, aborting the walk with the outer named `err` left
unset; a root error (`d == nil`) also aborts but assigns the outer
named `err`. Returns the collected items and the value of that named
`err` variable after the walk. -/
def run_walk (mime : String → String) (top : String) :
    List WalkEvent → List input_arg × Option String
  | [] => ([], none)
  | WalkEvent.rootErr e :: _ => ([], some ("Stat " ++ top ++ ": " ++ e))
  | WalkEvent.entryErr _ _ :: _ => ([], none)
  | WalkEvent.entry path isDir :: rest =>
    let found := if isDir = false && hasPrefixStr (mime path) "image/" then
        [{ arg := top, value := path }] else []
    let r := run_walk mime top rest
    (found ++ r.1, r.2)

/-- Resolution of one non-empty, non-HTTP argument in `process_dirs`:
rewrite `file://` via URL parsing (parse failure returns a PathError),
stat it (stat failure returns a PathError), walk it if a directory —
note the walk's named `err` is discarded, because the function's final
statement is `return results, nil` — or append it verbatim if not. -/
def resolve_local (fs : FS) (arg : String) : Except String (List input_arg) :=
  match (if hasPrefixStr arg "file://" then fs.parse_file_url arg else Except.ok arg) with
  | .error e => .error ("Parse " ++ arg ++ ": " ++ e)
  | .ok a =>
    match fs.stat a with
    | .statErr e => .error ("Stat " ++ a ++ ": " ++ e)
    | .dir events => .ok (run_walk fs.mime a events).1
    | .notDir => .ok [{ arg := a, value := a }]

/-- The argument loop of `process_dirs`: empty strings are skipped, HTTP
URLs become remote items verbatim, everything else goes through local
resolution; an early `return nil, err` aborts the whole call. -/
def process_dirs_loop (fs : FS) : List String → Except String (List input_arg)
  | [] => .ok []
  | a :: rest =>
    if a = "" then process_dirs_loop fs rest
    else
      match (if is_http_url a then
               Except.ok [{ arg := a, value := a, is_http_url := true }]
             else resolve_local fs a) with
      | .error e => .error e
      | .ok here =>
        match process_dirs_loop fs rest with
        | .error e => .error e
        | .ok rs => .ok (here ++ rs)

/-- `process_dirs`: prepend a stdin work item when the stdin policy
selects it (the `opts.Stdin`/`tty.IsTerminal` test is folded into the
boolean `stdin_included`), then resolve every argument in order. -/
def process_dirs (fs : FS) (stdin_included : Bool) (args : List String) :
    Except String (List input_arg) :=
  match process_dirs_loop fs args with
  | .error e => .error e
  | .ok rs => .ok ((if stdin_included then [{ arg := "/dev/stdin" }] else []) ++ rs)

/-- One output frame (`image_frame`); the opaque `shm` handle is not
modelled. Go zero values are the defaults. -/
structure image_frame where
  filename : String := ""
  in_memory_bytes : List Nat := []
  filename_is_temporary : Bool := false
  width : Int := 0
  height : Int := 0
deriving DecidableEq

/-- The per-item result record `image_data`; `err` is the error message
(`none` = nil). Go zero values are the defaults. -/
structure image_data where
  canvas_width : Int := 0
  canvas_height : Int := 0
  format_uppercase : String := ""
  available_width : Int := 0
  available_height : Int := 0
  needs_scaling : Bool := false
  needs_conversion : Bool := false
  frames : List image_frame := []
  image_number : Nat := 0
  err : Option String := none
  source_name : String := ""
deriving DecidableEq

/-- Terminal geometry (`screen_size`): pixel width and per-cell pixel
sizes, as used by `set_basic_metadata`. -/
structure ScreenSize where
  WidthPx : Nat
  CellWidth : Nat
  CellHeight : Nat
deriving DecidableEq

/-- An explicit placement (`place`): width and height in cells. -/
structure Place where
  width : Int
  height : Int
deriving DecidableEq

/-- The package-level configuration read by `set_basic_metadata` and
`process_arg`: terminal geometry, optional placement, and the user
flags `opts.ScaleUp`, `flip`, `flop`, and whether `remove_alpha` is
non-nil. -/
structure Env where
  screen_size : ScreenSize
  place : Option Place
  ScaleUp : Bool
  flip : Bool
  flop : Bool
  remove_alpha : Bool
deriving DecidableEq

/-- `set_basic_metadata`: `available_width` starts as the full display
pixel width and `available_height` as `10 * imgd.canvas_height`; an
explicit placement overrides both with cells times per-cell pixel size.
Then `needs_scaling` and `needs_conversion` are computed exactly as in
the source. -/
def set_basic_metadata (env : Env) (imgd : image_data) : image_data :=
  let aw : Int := match env.place with
    | none => (env.screen_size.WidthPx : Int)
    | some p => p.width * (env.screen_size.CellWidth : Int)
  let ah : Int := match env.place with
    | none => 10 * imgd.canvas_height
    | some p => p.height * (env.screen_size.CellHeight : Int)
  let ns : Bool := decide (imgd.canvas_width > aw) || decide (imgd.canvas_height > ah)
      || env.ScaleUp
  let nc : Bool := ns || env.remove_alpha || env.flip || env.flop
      || decide (imgd.format_uppercase ≠ "PNG")
  { imgd with available_width := aw, available_height := ah,
              needs_scaling := ns, needs_conversion := nc }

/-- `report_error` builds the result record pushed for a failure:
`source_name` plus the wrapped message `fmt.Errorf("%s: %w", msg, err)`. -/
def report_error_data (source_name msg e : String) : image_data :=
  { source_name := source_name, err := some (msg ++ ": " ++ e) }

/-- An opened byte source as `process_arg` holds it: either a
`BytesBuf` over in-memory bytes (remote download or stdin) or an open
`os.File` with its name. -/
inductive ByteSrc where
  | mem (data : List Nat)
  | fileH (name : String)
deriving DecidableEq

/-- `make_output_from_input`: append a single frame carrying the
original input through — the `BytesBuf` data for in-memory sources, the
file name (with the temporary flag when `name_to_unlink` is set)
otherwise. -/
def make_output_from_input (imgd : image_data) (src : ByteSrc)
    (name_to_unlink : String) : image_data :=
  match src with
  | .mem data =>
    { imgd with frames := imgd.frames ++
        [{ in_memory_bytes := data, width := imgd.canvas_width,
           height := imgd.canvas_height }] }
  | .fileH name =>
    { imgd with frames := imgd.frames ++
        [{ filename := name, filename_is_temporary := decide (name_to_unlink ≠ ""),
           width := imgd.canvas_width, height := imgd.canvas_height }] }

/-- Outcome of `http.Get` plus the body download in `process_arg`:
transport error, non-OK status, body-copy error, or the buffered body. -/
inductive HttpResult where
  | getErr (e : String)
  | badStatus (status : String)
  | downloadErr (e : String)
  | ok (body : List Nat)
deriving DecidableEq

/-- Environment for one worker run: configuration plus the outcomes of
the effectful collaborators (`http.Get`+download, `io.ReadAll(os.Stdin)`,
`os.Open`, `image.DecodeConfig` giving width, height and format), the
external renderer, and the value the cancellation flag `keep_going`
holds at the checkpoint inside `process_arg`.

The `render` field is the external renderer. Modelled from the spec:
`render_image_with_go` is not part of this core; it consumes the byte
source and decided geometry and returns either an error or the result
record with its frames populated with converted output, without itself
touching the output channel. -/
structure ProcEnv where
  env : Env
  http : String → HttpResult
  stdin_read : Except String (List Nat)
  open_file : String → Except String String
  decode_config : ByteSrc → Except String (Int × Int × String)
  render : image_data → ByteSrc → Except String image_data
  keep_going : Bool

/-- The fetch phase of `process_arg`: produce the opened byte source, or
the error result that `report_error` pushes (remote GET failure or bad
status or download failure; stdin read failure; local open failure). -/
def acquire (p : ProcEnv) (arg : input_arg) : Except image_data ByteSrc :=
  if arg.is_http_url then
    match p.http arg.value with
    | .getErr e => .error (report_error_data arg.value "Could not get" e)
    | .badStatus s =>
      .error (report_error_data arg.value "Could not get" ("bad status: " ++ s))
    | .downloadErr e => .error (report_error_data arg.value "Could not download" e)
    | .ok body => .ok (.mem body)
  else if arg.value = "" then
    match p.stdin_read with
    | .error e => .error (report_error_data "<stdin>" "Could not read from" e)
    | .ok data => .ok (.mem data)
  else
    match p.open_file arg.value with
    | .error e => .error (report_error_data arg.value "Could not open" e)
    | .ok name => .ok (.fileH name)

/-- Go `strings.ToUpper` (as used on ASCII format tags), modelled
structurally over the character list. -/
def toUpperStr (s : String) : String := String.mk (s.data.map Char.toUpper)

/-- The tail of `process_arg` after the conversion decision: pass the
input through as a single frame when no conversion is needed, otherwise
hand off to the external renderer and report its failure if any. -/
def post_probe_send (p : ProcEnv) (arg : input_arg) (src : ByteSrc)
    (imgd : image_data) : List image_data :=
  if imgd.needs_conversion = false then
    [make_output_from_input imgd src ""]
  else
    match p.render imgd src with
    | .error e => [report_error_data arg.value "Could not render image to RGB" e]
    | .ok imgd2 => [imgd2]

/-- The tail of `process_arg` after a successful probe (width, height
and format known): check the cancellation flag — returning nothing when
it is set — then compute the conversion decision and continue. -/
def process_decided (p : ProcEnv) (arg : input_arg) (src : ByteSrc)
    (w h : Int) (format : String) : List image_data :=
  if p.keep_going = false then []
  else
    post_probe_send p arg src (set_basic_metadata p.env
      { canvas_width := w, canvas_height := h,
        format_uppercase := toUpperStr format, source_name := arg.value })

/-- The tail of `process_arg` after fetching: probe with
`image.DecodeConfig` and rewind (which leaves the modelled source
unchanged), reporting a probe failure as an error result. -/
def process_probed (p : ProcEnv) (arg : input_arg) (src : ByteSrc) :
    List image_data :=
  match p.decode_config src with
  | .error e => [report_error_data arg.value "Unknown image format" e]
  | .ok (w, h, format) => process_decided p arg src w h format

/-- `process_arg`, returning the list of results it sends on the output
channel (in order): fetch, then probe, decide and emit; every failure is
reported via `report_error`. -/
def process_arg (p : ProcEnv) (arg : input_arg) : List image_data :=
  match acquire p arg with
  | .error imgd => [imgd]
  | .ok src => process_probed p arg src

/-- Whether `process_arg` reaches its cancellation checkpoint (fetch and
probe both succeeded, so nothing has been sent yet). -/
def reaches_decode_checkpoint (p : ProcEnv) (arg : input_arg) : Bool :=
  match acquire p arg with
  | .error _ => false
  | .ok src =>
    match p.decode_config src with
    | .error _ => false
    | .ok _ => true

/-- One claimed item inside `run_worker`: after pulling an item off the
channel the worker re-checks `keep_going` (its value at claim time is
`keep_going_at_claim`) and returns without processing when cancellation
is active; otherwise it runs `process_arg`. -/
def worker_step (keep_going_at_claim : Bool) (p : ProcEnv) (arg : input_arg) :
    List image_data :=
  if keep_going_at_claim = false then [] else process_arg p arg

/-- Test environment: an 800 px wide display with 10 x 20 px cells, no
explicit placement, all flags off. -/
def c1_env : Env :=
  { screen_size := { WidthPx := 800, CellWidth := 10, CellHeight := 20 },
    place := none, ScaleUp := false, flip := false, flop := false,
    remove_alpha := false }

/-- C1: with no explicit placement the code sets `available_height` to
ten times the image's own canvas height, not ten display rows: with a
cell height of 20 px, a 5-row-tall image gets `available_height = 50`
and a 7-row-tall one gets `70`, neither equal to `10 * 20 = 200`, so the
value is not independent of the image's dimensions. -/
theorem c1_available_height_uses_canvas_height :
    c1_env.place = none ∧
    (set_basic_metadata c1_env { canvas_width := 100, canvas_height := 5 }).available_height = 50 ∧
    (set_basic_metadata c1_env { canvas_width := 100, canvas_height := 7 }).available_height = 70 ∧
    ((50 : Int) ≠ 10 * (c1_env.screen_size.CellHeight : Int) ∧
     (70 : Int) ≠ 10 * (c1_env.screen_size.CellHeight : Int)) := by
  refine ⟨rfl, rfl, rfl, by decide, by decide⟩

/-- C5: `needs_scaling` holds exactly when the canvas exceeds the
available box in either dimension or scale-up was requested, and
`needs_conversion` exactly when scaling is needed, alpha removal or a
flip was requested, or the uppercase format tag differs from "PNG". -/
theorem c5_conversion_decision_formula (env : Env) (imgd : image_data) :
    ((set_basic_metadata env imgd).needs_scaling = true ↔
      ((set_basic_metadata env imgd).available_width < (set_basic_metadata env imgd).canvas_width ∨
       (set_basic_metadata env imgd).available_height < (set_basic_metadata env imgd).canvas_height ∨
       env.ScaleUp = true)) ∧
    ((set_basic_metadata env imgd).needs_conversion = true ↔
      ((set_basic_metadata env imgd).needs_scaling = true ∨ env.remove_alpha = true ∨
       env.flip = true ∨ env.flop = true ∨
       (set_basic_metadata env imgd).format_uppercase ≠ "PNG")) := by
  cases h : env.place <;>
    simp [set_basic_metadata, h, Bool.or_eq_true, decide_eq_true_eq, gt_iff_lt] <;>
    tauto

/-- Test resolver environment: "d" is a directory whose walk fails on the
entry "d/sub"; everything else is a plain file. -/
def c2_fs : FS :=
  { parse_file_url := fun _ => .error "unused",
    stat := fun a => if a = "d" then .dir [WalkEvent.entryErr "d/sub" "permission denied"] else .notDir,
    mime := fun _ => "image/png" }

/-- C2: resolving a directory argument whose walk fails on an individual
entry returns `ok` with no error — the walk error is dropped by the
final `return results, nil` — contradicting the expectation that it
surfaces as a resolution error. -/
theorem c2_walk_entry_error_is_dropped :
    c2_fs.stat "d" = StatResult.dir [WalkEvent.entryErr "d/sub" "permission denied"] ∧
    process_dirs c2_fs false ["d"] = Except.ok [] := by
  exact ⟨rfl, rfl⟩

/-- C3: when the cancellation flag stays unset, `process_arg` sends
exactly one result on the output channel, on every path. -/
theorem c3_exactly_one_result_per_item (p : ProcEnv) (arg : input_arg)
    (h : p.keep_going = true) :
    (process_arg p arg).length = 1 := by
  unfold process_arg
  cases acquire p arg with
  | error i => rfl
  | ok src =>
    show (process_probed p arg src).length = 1
    unfold process_probed
    cases p.decode_config src with
    | error e => rfl
    | ok val =>
      obtain ⟨w, h2, fmt⟩ := val
      show (process_decided p arg src w h2 fmt).length = 1
      unfold process_decided
      rw [h, if_neg (by simp : ¬(true = false))]
      unfold post_probe_send
      split
      · rfl
      · split <;> rfl

/-- Test worker environment for C3: everything succeeds and the flag is
unset (keep going). -/
def c3_penv : ProcEnv :=
  { env := c1_env, http := fun _ => .ok [1, 2, 3], stdin_read := .ok [],
    open_file := fun n => .ok n, decode_config := fun _ => .ok (1, 1, "png"),
    render := fun i _ => .ok i, keep_going := true }

/-- Witness for C3 at a concrete local file item. -/
theorem c3_exactly_one_result_per_item_witness :
    c3_penv.keep_going = true ∧
    (process_arg c3_penv { value := "a.png" }).length = 1 :=
  ⟨rfl, c3_exactly_one_result_per_item c3_penv { value := "a.png" } rfl⟩

/-- Reaching the in-item checkpoint means fetch and probe both
succeeded. -/
lemma reaches_decode_checkpoint_spec (p : ProcEnv) (arg : input_arg)
    (hc : reaches_decode_checkpoint p arg = true) :
    ∃ src val, acquire p arg = Except.ok src ∧
      p.decode_config src = Except.ok val := by
  unfold reaches_decode_checkpoint at hc
  cases hA : acquire p arg with
  | error i => rw [hA] at hc; exact Bool.noConfusion hc
  | ok src =>
    rw [hA] at hc
    have hc' : (match p.decode_config src with
        | Except.error _ => false
        | Except.ok _ => true) = true := hc
    cases hD : p.decode_config src with
    | error e => rw [hD] at hc'; exact Bool.noConfusion hc'
    | ok val => exact ⟨src, val, rfl, hD⟩

/-- C4: a worker that observes cancellation at a checkpoint — either at
claim time in `run_worker` or at the post-probe checkpoint inside
`process_arg` — emits nothing for the item. -/
theorem c4_cancellation_drops_item_silently (p : ProcEnv) (arg : input_arg) (k1 : Bool)
    (h : k1 = false ∨ (p.keep_going = false ∧ reaches_decode_checkpoint p arg = true)) :
    worker_step k1 p arg = [] := by
  rcases h with h | ⟨hk, hc⟩
  · simp [worker_step, h]
  · obtain ⟨src, val, hA, hD⟩ := reaches_decode_checkpoint_spec p arg hc
    by_cases hk1 : k1 = false
    · simp [worker_step, hk1]
    · simp only [worker_step, if_neg hk1]
      unfold process_arg
      rw [hA]
      show process_probed p arg src = []
      unfold process_probed
      obtain ⟨w, h2, fmt⟩ := val
      rw [hD]
      show process_decided p arg src w h2 fmt = []
      unfold process_decided
      rw [hk]
      simp

/-- Test worker environment for C4: fetch and probe succeed but the
cancellation flag is set at the checkpoint. -/
def c4_penv : ProcEnv :=
  { env := c1_env, http := fun _ => .ok [1, 2, 3], stdin_read := .ok [],
    open_file := fun n => .ok n, decode_config := fun _ => .ok (1, 1, "png"),
    render := fun i _ => .ok i, keep_going := false }

/-- Witness for C4: cancellation observed at the in-item checkpoint of a
claimed local file item yields no result. -/
theorem c4_cancellation_drops_item_silently_witness :
    (c4_penv.keep_going = false ∧
     reaches_decode_checkpoint c4_penv { value := "a.png" } = true) ∧
    worker_step true c4_penv { value := "a.png" } = [] :=
  ⟨⟨rfl, rfl⟩,
   c4_cancellation_drops_item_silently c4_penv { value := "a.png" } true
     (Or.inr ⟨rfl, rfl⟩)⟩

/-- C7: a remote item whose HTTP GET yields a non-OK status produces
exactly one result, with a non-nil error whose message begins with
"Could not get", the source URL as `source_name`, and no frames. -/
theorem c7_remote_bad_status_one_error_result (p : ProcEnv) (arg : input_arg) (s : String)
    (h1 : arg.is_http_url = true) (h2 : p.http arg.value = HttpResult.badStatus s) :
    ∃ r, process_arg p arg = [r] ∧ r.err.isSome = true ∧
      r.source_name = arg.value ∧ r.frames = [] ∧
      ∃ t, r.err = some ("Could not get" ++ t) := by
  refine ⟨report_error_data arg.value "Could not get" ("bad status: " ++ s),
    ?_, rfl, rfl, rfl, ⟨": " ++ ("bad status: " ++ s), ?_⟩⟩
  · unfold process_arg acquire
    simp [h1, h2]
  · exact congrArg some (String.append_assoc "Could not get" ": " ("bad status: " ++ s))

/-- Test worker environment for C7: the HTTP GET returns 404. -/
def c7_penv : ProcEnv :=
  { env := c1_env, http := fun _ => .badStatus "404 Not Found", stdin_read := .ok [],
    open_file := fun n => .ok n, decode_config := fun _ => .ok (1, 1, "png"),
    render := fun i _ => .ok i, keep_going := true }

/-- Witness for C7 at a concrete URL. -/
theorem c7_remote_bad_status_one_error_result_witness :
    ({ arg := "http://x/y.png", value := "http://x/y.png", is_http_url := true : input_arg }.is_http_url = true ∧
     c7_penv.http "http://x/y.png" = HttpResult.badStatus "404 Not Found") ∧
    ∃ r, process_arg c7_penv { arg := "http://x/y.png", value := "http://x/y.png", is_http_url := true } = [r] ∧
      r.err.isSome = true ∧ r.source_name = "http://x/y.png" ∧ r.frames = [] ∧
      ∃ t, r.err = some ("Could not get" ++ t) :=
  ⟨⟨rfl, rfl⟩,
   c7_remote_bad_status_one_error_result c7_penv
     { arg := "http://x/y.png", value := "http://x/y.png", is_http_url := true }
     "404 Not Found" rfl rfl⟩

/-- The work item a single successful walk event contributes, if any:
non-directory entries whose guessed MIME type begins with `image/`. -/
def walk_entry_item (mime : String → String) (top : String) : WalkEvent → Option input_arg
  | WalkEvent.entry path isDir =>
    if isDir = false && hasPrefixStr (mime path) "image/" then
      some { arg := top, value := path } else none
  | _ => none

/-- A walk with only successful entry visits collects exactly the
image-typed non-directory entries, in walk order, and leaves the named
error unset. -/
lemma run_walk_all_entries (mime : String → String) (top : String)
    (events : List WalkEvent) (h : ∀ ev ∈ events, ev.isEntry = true) :
    run_walk mime top events = (events.filterMap (walk_entry_item mime top), none) := by
  induction events with
  | nil => rfl
  | cons ev rest ih =>
    have hev := h ev (List.mem_cons_self ev rest)
    have hrest : ∀ e ∈ rest, e.isEntry = true := fun e he => h e (List.mem_cons_of_mem _ he)
    cases ev with
    | entry path isDir =>
      simp only [run_walk, ih hrest]
      rw [List.filterMap_cons]
      simp only [walk_entry_item]
      split <;> rename_i hC <;> simp [hC]
    | entryErr path e => exact Bool.noConfusion hev
    | rootErr e => exact Bool.noConfusion hev

/-- Resolving a single non-empty non-HTTP argument whose local
resolution succeeds. -/
lemma process_dirs_single_ok (fs : FS) (a : String) (here : List input_arg)
    (h1 : ¬ a = "") (h2 : is_http_url a = false)
    (hR : resolve_local fs a = Except.ok here) :
    process_dirs fs false [a] = Except.ok here := by
  unfold process_dirs process_dirs_loop
  rw [if_neg h1, h2, if_neg Bool.false_ne_true, hR]
  simp [process_dirs_loop]

/-- Local resolution of a plain (non `file://`) directory argument:
walk it and keep the collected items, dropping the walk's named error. -/
lemma resolve_local_dir (fs : FS) (a : String) (events : List WalkEvent)
    (h3 : hasPrefixStr a "file://" = false) (h4 : fs.stat a = StatResult.dir events) :
    resolve_local fs a = Except.ok (run_walk fs.mime a events).1 := by
  unfold resolve_local
  rw [h3, if_neg Bool.false_ne_true]
  show (match fs.stat a with
    | StatResult.statErr e => Except.error ("Stat " ++ a ++ ": " ++ e)
    | StatResult.dir events => Except.ok (run_walk fs.mime a events).1
    | StatResult.notDir => Except.ok [{ arg := a, value := a }]) = _
  rw [h4]

/-- Local resolution of a plain (non `file://`) non-directory argument:
one verbatim item, with no MIME filtering. -/
lemma resolve_local_notDir (fs : FS) (a : String)
    (h3 : hasPrefixStr a "file://" = false) (h4 : fs.stat a = StatResult.notDir) :
    resolve_local fs a = Except.ok [{ arg := a, value := a }] := by
  unfold resolve_local
  rw [h3, if_neg Bool.false_ne_true]
  show (match fs.stat a with
    | StatResult.statErr e => Except.error ("Stat " ++ a ++ ": " ++ e)
    | StatResult.dir events => Except.ok (run_walk fs.mime a events).1
    | StatResult.notDir => Except.ok [{ arg := a, value := a }]) = _
  rw [h4]

/-- C8: a directory argument contributes exactly one work item per
successfully walked non-directory entry whose guessed MIME type begins
with `image/`, in walk order; an explicit non-directory argument
contributes exactly one work item regardless of MIME type. -/
theorem c8_directory_filtering_and_explicit_files (fs : FS) (a : String)
    (events : List WalkEvent)
    (h1 : ¬ a = "") (h2 : is_http_url a = false)
    (h3 : hasPrefixStr a "file://" = false)
    (h4 : fs.stat a = StatResult.dir events)
    (h5 : ∀ ev ∈ events, ev.isEntry = true) :
    process_dirs fs false [a] = Except.ok (events.filterMap (walk_entry_item fs.mime a)) ∧
    (∀ b : String, ¬ b = "" → is_http_url b = false → hasPrefixStr b "file://" = false →
      fs.stat b = StatResult.notDir →
      process_dirs fs false [b] = Except.ok [{ arg := b, value := b }]) := by
  constructor
  · have hR : resolve_local fs a = Except.ok (events.filterMap (walk_entry_item fs.mime a)) := by
      rw [resolve_local_dir fs a events h3 h4, run_walk_all_entries fs.mime a events h5]
    exact process_dirs_single_ok fs a _ h1 h2 hR
  · intro b hb1 hb2 hb3 hb4
    exact process_dirs_single_ok fs b _ hb1 hb2 (resolve_local_notDir fs b hb3 hb4)

/-- Walk events for the C8 witness directory: one image file, one
subdirectory, one non-image file. -/
def c8_events : List WalkEvent :=
  [WalkEvent.entry "d/a.png" false, WalkEvent.entry "d/sub" true,
   WalkEvent.entry "d/b.txt" false]

/-- Test resolver environment for C8: "d" is a directory with the
events above, everything else a plain file; only "d/a.png" is
MIME-classified as an image. -/
def c8_fs : FS :=
  { parse_file_url := fun _ => .error "unused",
    stat := fun a => if a = "d" then .dir c8_events else .notDir,
    mime := fun p => if p = "d/a.png" then "image/png" else "text/plain" }

/-- Witness for C8: the directory yields exactly its one image entry;
an explicit text file yields one unfiltered item. -/
theorem c8_directory_filtering_and_explicit_files_witness :
    (¬ "d" = "" ∧ is_http_url "d" = false ∧ hasPrefixStr "d" "file://" = false ∧
     c8_fs.stat "d" = StatResult.dir c8_events ∧ (∀ ev ∈ c8_events, ev.isEntry = true)) ∧
    process_dirs c8_fs false ["d"] = Except.ok [{ arg := "d", value := "d/a.png" }] ∧
    process_dirs c8_fs false ["f.txt"] = Except.ok [{ arg := "f.txt", value := "f.txt" }] := by
  have h := c8_directory_filtering_and_explicit_files c8_fs "d" c8_events
    (by decide) rfl rfl rfl (by decide)
  exact ⟨⟨by decide, rfl, rfl, rfl, by decide⟩,
    h.1.trans (congrArg Except.ok (by decide)),
    h.2 "f.txt" (by decide) rfl rfl (by decide)⟩

/-- One `Read` call from a valid position `p`: it returns the next
`min plen (len - p)` bytes (equivalently, `take plen` of the remaining
data) and advances the position by that amount. -/
lemma Read_eq (data : List Nat) (p : Nat) (hp : p ≤ data.length) (n : Nat) :
    ∃ err, BytesBuf.Read ⟨data, (p : Int)⟩ n =
      (⟨data, ((p + min n (data.length - p) : Nat) : Int)⟩,
       (data.drop p).take n, err) := by
  unfold BytesBuf.Read
  have h1 : min ((n : Int)) ((data.length : Int) - (p : Int)) =
      ((min n (data.length - p) : Nat) : Int) := by
    push_cast [Nat.cast_sub hp]
    rfl
  rw [h1]
  by_cases h0 : min n (data.length - p) = 0
  · refine ⟨some "EOF", ?_⟩
    rw [if_pos (by exact_mod_cast congrArg (Nat.cast : Nat → Int) h0)]
    have : (data.drop p).take n = [] := by
      rcases Nat.min_eq_zero_iff.mp h0 with h | h
      · simp [h]
      · have : data.length ≤ p := by omega
        simp [List.drop_eq_nil_of_le this]
    rw [this, h0]
    simp
  · refine ⟨none, ?_⟩
    rw [if_neg (by exact_mod_cast fun hh => h0 (by exact_mod_cast hh))]
    have hpos : ((p : Int)).toNat = p := Int.toNat_natCast p
    have hnb : (((min n (data.length - p) : Nat) : Int)).toNat = min n (data.length - p) :=
      Int.toNat_natCast _
    rw [hpos, hnb]
    have htake : (data.drop p).take (min n (data.length - p)) = (data.drop p).take n := by
      rcases Nat.le_total n (data.length - p) with h | h
      · rw [Nat.min_eq_left h]
      · rw [Nat.min_eq_right h]
        have hlen : (data.drop p).length = data.length - p := List.length_drop p data
        rw [List.take_of_length_le (by omega), List.take_of_length_le (by omega)]
    rw [htake]
    have : (p : Int) + ((min n (data.length - p) : Nat) : Int) =
        (((p + min n (data.length - p) : Nat)) : Int) := by push_cast; ring
    rw [this]

/-- Sequential reads from a valid position return exactly the remaining
data, truncated to the total requested size. -/
lemma readSeq_eq (sizes : List Nat) : ∀ (data : List Nat) (p : Nat), p ≤ data.length →
    BytesBuf.readSeq ⟨data, (p : Int)⟩ sizes = (data.drop p).take sizes.sum := by
  induction sizes with
  | nil => intro data p hp; simp [BytesBuf.readSeq]
  | cons n rest ih =>
    intro data p hp
    rw [BytesBuf.readSeq]
    obtain ⟨err, hRead⟩ := Read_eq data p hp n
    rw [hRead]
    show (data.drop p).take n ++
        BytesBuf.readSeq ⟨data, ((p + min n (data.length - p) : Nat) : Int)⟩ rest =
      (data.drop p).take ((n :: rest).sum)
    rw [ih data (p + min n (data.length - p)) (by omega)]
    have hdd : data.drop (p + min n (data.length - p)) =
        (data.drop p).drop (min n (data.length - p)) := by
      rw [List.drop_drop]
    rw [hdd]
    have hdrop : (data.drop p).drop (min n (data.length - p)) = (data.drop p).drop n := by
      rcases Nat.le_total n (data.length - p) with h | h
      · rw [Nat.min_eq_left h]
      · rw [Nat.min_eq_right h]
        have hlen : (data.drop p).length = data.length - p := List.length_drop p data
        rw [List.drop_eq_nil_of_le (by omega), List.drop_eq_nil_of_le (by omega)]
    rw [hdrop, List.sum_cons, List.take_add]

/-- C9: rewinding a `BytesBuf` with `Seek(0, SeekStart)` resets the
position to 0 and preserves the data, and sequential reads covering the
whole length then return exactly the original byte sequence. -/
theorem c9_rewind_then_read_roundtrip (b : BytesBuf) (sizes : List Nat)
    (h : b.data.length ≤ sizes.sum) :
    ((b.Seek 0 0).1).pos = 0 ∧ ((b.Seek 0 0).1).data = b.data ∧
    BytesBuf.readSeq (b.Seek 0 0).1 sizes = b.data := by
  have hseek : (b.Seek 0 0).1 = ⟨b.data, ((0 : Nat) : Int)⟩ := by
    unfold BytesBuf.Seek
    rw [if_pos rfl]
    have : max (0 : Int) (min 0 (b.data.length : Int)) = 0 := by
      rw [min_eq_left (Int.ofNat_nonneg b.data.length), max_self]
    simp [this]
  refine ⟨by rw [hseek]; rfl, by rw [hseek], ?_⟩
  rw [hseek, readSeq_eq sizes b.data 0 (Nat.zero_le _), List.drop_zero,
    List.take_of_length_le h]


/-- Witness for C9: a buffer positioned mid-stream, rewound and then
read in chunks of sizes 2, 0 and 5. -/
theorem c9_rewind_then_read_roundtrip_witness :
    (⟨[3, 1, 4], 2⟩ : BytesBuf).data.length ≤ ([2, 0, 5] : List Nat).sum ∧
    BytesBuf.readSeq ((⟨[3, 1, 4], 2⟩ : BytesBuf).Seek 0 0).1 [2, 0, 5] = [3, 1, 4] :=
  ⟨by decide, (c9_rewind_then_read_roundtrip ⟨[3, 1, 4], 2⟩ [2, 0, 5] (by decide)).2.2⟩

/-- Clamping into `[0, n]` stays in `[0, n]`. -/
lemma clamp_bounds (x : Int) (n : Nat) :
    0 ≤ max 0 (min x (n : Int)) ∧ max 0 (min x (n : Int)) ≤ (n : Int) :=
  ⟨le_max_left 0 _, max_le (Int.ofNat_nonneg n) (min_le_right x _)⟩

/-- C10: starting from a position in `[0, len(data)]`, `Seek` clamps and
keeps the position in range and only fails (leaving the buffer
unchanged) on an unknown `whence`; `Read` and `Close` also keep the
position in range. -/
theorem c10_position_stays_in_range (b : BytesBuf)
    (hp0 : 0 ≤ b.pos) (hp1 : b.pos ≤ (b.data.length : Int)) :
    (∀ offset whence : Int,
      (0 ≤ ((b.Seek offset whence).1).pos ∧
       ((b.Seek offset whence).1).pos ≤ (((b.Seek offset whence).1).data.length : Int)) ∧
      ((whence = 0 ∨ whence = 1 ∨ whence = 2) → ((b.Seek offset whence).2).2 = none) ∧
      (¬(whence = 0 ∨ whence = 1 ∨ whence = 2) →
        ((b.Seek offset whence).2).2 ≠ none ∧ (b.Seek offset whence).1 = b)) ∧
    (∀ plen : Nat,
      0 ≤ ((b.Read plen).1).pos ∧
      ((b.Read plen).1).pos ≤ (((b.Read plen).1).data.length : Int)) ∧
    (0 ≤ ((b.Close).1).pos ∧ ((b.Close).1).pos ≤ (((b.Close).1).data.length : Int)) := by
  refine ⟨?_, ?_, ?_⟩
  · intro offset whence
    refine ⟨?_, ?_, ?_⟩
    · unfold BytesBuf.Seek
      split
      · exact clamp_bounds _ _
      · split
        · exact clamp_bounds _ _
        · split
          · exact clamp_bounds _ _
          · exact ⟨hp0, hp1⟩
    · rintro (rfl | rfl | rfl)
      · rfl
      · rfl
      · rfl
    · intro hW
      have h0 : ¬whence = 0 := fun hh => hW (Or.inl hh)
      have h1 : ¬whence = 1 := fun hh => hW (Or.inr (Or.inl hh))
      have h2 : ¬whence = 2 := fun hh => hW (Or.inr (Or.inr hh))
      unfold BytesBuf.Seek
      rw [if_neg h0, if_neg h1, if_neg h2]
      exact ⟨by simp, rfl⟩
  · intro plen
    obtain ⟨data, pos⟩ := b
    have hp0a : 0 ≤ pos := hp0
    have hp1a : pos ≤ (data.length : Int) := hp1
    have hp : pos = ((pos.toNat : Nat) : Int) := (Int.toNat_of_nonneg hp0a).symm
    have hple : pos.toNat ≤ data.length := by omega
    obtain ⟨err, hR⟩ := Read_eq data pos.toNat hple plen
    rw [hp, hR]
    have hmin := Nat.min_le_right plen (data.length - pos.toNat)
    constructor
    · show (0 : Int) ≤ ((pos.toNat + min plen (data.length - pos.toNat) : Nat) : Int)
      exact Int.ofNat_nonneg _
    · show ((pos.toNat + min plen (data.length - pos.toNat) : Nat) : Int) ≤
        ((data.length : Nat) : Int)
      omega
  · exact ⟨le_refl 0, by simp [BytesBuf.Close]⟩

/-- Witness for C10: a two-byte buffer at position 1; an in-range seek
for `SeekCurrent` with a large offset, the error-and-unchanged outcome
for unknown whence 7, and a read staying in range. -/
theorem c10_position_stays_in_range_witness :
    (0 ≤ (⟨[5, 6], 1⟩ : BytesBuf).pos ∧
     (⟨[5, 6], 1⟩ : BytesBuf).pos ≤ (((⟨[5, 6], 1⟩ : BytesBuf)).data.length : Int)) ∧
    (0 ≤ (((⟨[5, 6], 1⟩ : BytesBuf).Seek 100 1).1).pos ∧
     (((⟨[5, 6], 1⟩ : BytesBuf).Seek 100 1).1).pos ≤
       ((((⟨[5, 6], 1⟩ : BytesBuf).Seek 100 1).1).data.length : Int)) ∧
    (((⟨[5, 6], 1⟩ : BytesBuf).Seek 100 7).2.2 ≠ none ∧
     ((⟨[5, 6], 1⟩ : BytesBuf).Seek 100 7).1 = (⟨[5, 6], 1⟩ : BytesBuf)) ∧
    (0 ≤ (((⟨[5, 6], 1⟩ : BytesBuf).Read 3).1).pos ∧
     (((⟨[5, 6], 1⟩ : BytesBuf).Read 3).1).pos ≤
       ((((⟨[5, 6], 1⟩ : BytesBuf).Read 3).1).data.length : Int)) :=
  ⟨⟨by decide, by decide⟩,
   ((c10_position_stays_in_range ⟨[5, 6], 1⟩ (by decide) (by decide)).1 100 1).1,
   ((c10_position_stays_in_range ⟨[5, 6], 1⟩ (by decide) (by decide)).1 100 7).2.2 (by decide),
   (c10_position_stays_in_range ⟨[5, 6], 1⟩ (by decide) (by decide)).2.1 3⟩

/-- The conversion decision never touches the frames or canvas fields. -/
lemma set_basic_metadata_fields (env : Env) (imgd : image_data) :
    (set_basic_metadata env imgd).frames = imgd.frames ∧
    (set_basic_metadata env imgd).canvas_width = imgd.canvas_width ∧
    (set_basic_metadata env imgd).canvas_height = imgd.canvas_height := by
  unfold set_basic_metadata
  cases env.place <;> exact ⟨rfl, rfl, rfl⟩

/-- With all conversion flags off, an uppercase format tag of "PNG" and
a canvas fitting the available box, the conversion decision is negative. -/
lemma needs_conversion_false_of_fits (env : Env) (w h : Int) (fmt s : String)
    (hS : env.ScaleUp = false) (hf : env.flip = false) (hfl : env.flop = false)
    (ha : env.remove_alpha = false) (hfmt : fmt = "PNG")
    (hw : w ≤ (set_basic_metadata env
        { canvas_width := w, canvas_height := h, format_uppercase := fmt,
          source_name := s }).available_width)
    (hh : h ≤ (set_basic_metadata env
        { canvas_width := w, canvas_height := h, format_uppercase := fmt,
          source_name := s }).available_height) :
    (set_basic_metadata env
        { canvas_width := w, canvas_height := h, format_uppercase := fmt,
          source_name := s }).needs_conversion = false := by
  subst hfmt
  cases hpl : env.place with
  | none =>
    simp only [set_basic_metadata, hpl] at hw hh ⊢
    simp only [hS, hf, hfl, ha, Bool.or_false, Bool.or_eq_false_iff,
      decide_eq_false_iff_not, not_lt, gt_iff_lt]
    exact ⟨⟨hw, hh⟩, fun hne => hne rfl⟩
  | some pl =>
    simp only [set_basic_metadata, hpl] at hw hh ⊢
    simp only [hS, hf, hfl, ha, Bool.or_false, Bool.or_eq_false_iff,
      decide_eq_false_iff_not, not_lt, gt_iff_lt]
    exact ⟨⟨hw, hh⟩, fun hne => hne rfl⟩

/-- When fetch and probe succeed and the conversion decision is
negative, `process_arg` passes the input straight through as one frame. -/
lemma process_arg_passthrough (p : ProcEnv) (arg : input_arg) (src : ByteSrc)
    (w h : Int) (fmt : String)
    (hk : p.keep_going = true)
    (hA : acquire p arg = Except.ok src)
    (hD : p.decode_config src = Except.ok (w, h, fmt))
    (hnc : (set_basic_metadata p.env
        { canvas_width := w, canvas_height := h, format_uppercase := toUpperStr fmt,
          source_name := arg.value }).needs_conversion = false) :
    process_arg p arg = [make_output_from_input (set_basic_metadata p.env
      { canvas_width := w, canvas_height := h, format_uppercase := toUpperStr fmt,
        source_name := arg.value }) src ""] := by
  unfold process_arg
  rw [hA]
  show process_probed p arg src = _
  unfold process_probed
  rw [hD]
  show process_decided p arg src w h fmt = _
  unfold process_decided
  rw [hk, if_neg (by simp : ¬(true = false))]
  unfold post_probe_send
  rw [hnc, if_pos rfl]

/-- C6 (amended: scale-up additionally not requested): an input whose
probed format uppercases to "PNG", whose dimensions fit the available
box, with flip, flop, alpha removal and scale-up all off, is emitted as
one frame that carries the original fetched bytes for an in-memory
source, and a non-temporary reference to the original file for a
file-backed source. -/
theorem c6_png_passthrough (p : ProcEnv)
    (hk : p.keep_going = true) (hS : p.env.ScaleUp = false) (hf : p.env.flip = false)
    (hfl : p.env.flop = false) (ha : p.env.remove_alpha = false) :
    (∀ (arg : input_arg) (bs : List Nat) (w h : Int) (fmt : String),
      acquire p arg = Except.ok (ByteSrc.mem bs) →
      p.decode_config (ByteSrc.mem bs) = Except.ok (w, h, fmt) →
      toUpperStr fmt = "PNG" →
      w ≤ (set_basic_metadata p.env
          { canvas_width := w, canvas_height := h, format_uppercase := toUpperStr fmt,
            source_name := arg.value }).available_width →
      h ≤ (set_basic_metadata p.env
          { canvas_width := w, canvas_height := h, format_uppercase := toUpperStr fmt,
            source_name := arg.value }).available_height →
      (process_arg p arg).map (fun r => r.frames.map (fun fr => fr.in_memory_bytes)) =
        [[bs]]) ∧
    (∀ (arg : input_arg) (name : String) (w h : Int) (fmt : String),
      acquire p arg = Except.ok (ByteSrc.fileH name) →
      p.decode_config (ByteSrc.fileH name) = Except.ok (w, h, fmt) →
      toUpperStr fmt = "PNG" →
      w ≤ (set_basic_metadata p.env
          { canvas_width := w, canvas_height := h, format_uppercase := toUpperStr fmt,
            source_name := arg.value }).available_width →
      h ≤ (set_basic_metadata p.env
          { canvas_width := w, canvas_height := h, format_uppercase := toUpperStr fmt,
            source_name := arg.value }).available_height →
      (process_arg p arg).map
        (fun r => r.frames.map (fun fr => (fr.filename, fr.filename_is_temporary))) =
        [[(name, false)]]) := by
  constructor
  · intro arg bs w h fmt hA hD hfmt hw hh
    have hnc := needs_conversion_false_of_fits p.env w h (toUpperStr fmt) arg.value
      hS hf hfl ha hfmt hw hh
    rw [process_arg_passthrough p arg (ByteSrc.mem bs) w h fmt hk hA hD hnc]
    simp [make_output_from_input, (set_basic_metadata_fields p.env _).1]
  · intro arg name w h fmt hA hD hfmt hw hh
    have hnc := needs_conversion_false_of_fits p.env w h (toUpperStr fmt) arg.value
      hS hf hfl ha hfmt hw hh
    rw [process_arg_passthrough p arg (ByteSrc.fileH name) w h fmt hk hA hD hnc]
    simp [make_output_from_input, (set_basic_metadata_fields p.env _).1]

/-- Environment for the C6 counterexample: scale-up requested,
everything else off, no placement. -/
def c6_env : Env :=
  { screen_size := { WidthPx := 100, CellWidth := 10, CellHeight := 20 },
    place := none, ScaleUp := true, flip := false, flop := false,
    remove_alpha := false }

/-- Worker environment for the C6 counterexample. The `render` field is
modelled from the spec: the external renderer populates the frames with
converted output (here the bytes `[0, 1, 2]`), not the original encoded
stream. -/
def c6_penv : ProcEnv :=
  { env := c6_env,
    http := fun _ => .ok [9, 9],
    stdin_read := .ok [],
    open_file := fun n => .ok n,
    decode_config := fun _ => .ok (2, 3, "png"),
    render := fun i _ =>
      .ok { i with frames := [{ in_memory_bytes := [0, 1, 2], width := 2, height := 3 }] },
    keep_going := true }

/-- The remote work item used in the C6 counterexample. -/
def c6_arg : input_arg :=
  { arg := "http://x/a.png", value := "http://x/a.png", is_http_url := true }

/-- C6 counterexample: a fetched in-memory PNG (bytes `[9, 9]`) whose
2 x 3 canvas fits the 100 x 30 available box, with flip, flop and alpha
removal all off — every condition of the claim — is nevertheless
converted because scale-up is requested, and the single emitted frame
carries the renderer's converted bytes `[0, 1, 2]`, not the original
`[9, 9]`. -/
theorem c6_counterexample_scale_up :
    (toUpperStr "png" = "PNG" ∧
     acquire c6_penv c6_arg = Except.ok (ByteSrc.mem [9, 9]) ∧
     c6_penv.decode_config (ByteSrc.mem [9, 9]) = Except.ok (2, 3, "png") ∧
     c6_penv.env.flip = false ∧ c6_penv.env.flop = false ∧
     c6_penv.env.remove_alpha = false ∧
     (2 : Int) ≤ (set_basic_metadata c6_penv.env
        { canvas_width := 2, canvas_height := 3, format_uppercase := toUpperStr "png",
          source_name := c6_arg.value }).available_width ∧
     (3 : Int) ≤ (set_basic_metadata c6_penv.env
        { canvas_width := 2, canvas_height := 3, format_uppercase := toUpperStr "png",
          source_name := c6_arg.value }).available_height) ∧
    (process_arg c6_penv c6_arg).map
      (fun r => r.frames.map (fun fr => fr.in_memory_bytes)) = [[[0, 1, 2]]] ∧
    ¬ ([[[0, 1, 2]]] : List (List (List Nat))) = [[[9, 9]]] := by
  refine ⟨⟨by decide, rfl, rfl, rfl, rfl, rfl, by decide, by decide⟩, by decide, by decide⟩

/-- Environment for the C6 witness: all flags off, no placement. -/
def c6w_env : Env :=
  { screen_size := { WidthPx := 100, CellWidth := 10, CellHeight := 20 },
    place := none, ScaleUp := false, flip := false, flop := false,
    remove_alpha := false }

/-- Worker environment for the C6 witness. -/
def c6w_penv : ProcEnv :=
  { env := c6w_env,
    http := fun _ => .ok [137, 80],
    stdin_read := .ok [],
    open_file := fun n => .ok n,
    decode_config := fun _ => .ok (2, 3, "png"),
    render := fun i _ => .ok i,
    keep_going := true }

/-- Witness for the amended C6: a fetched remote PNG is passed through
byte-identically, and a local file is passed through as a non-temporary
reference to the original file. -/
theorem c6_png_passthrough_witness :
    (c6w_penv.keep_going = true ∧ c6w_penv.env.ScaleUp = false ∧
     c6w_penv.env.flip = false ∧ c6w_penv.env.flop = false ∧
     c6w_penv.env.remove_alpha = false) ∧
    (process_arg c6w_penv
        { arg := "http://x/a.png", value := "http://x/a.png", is_http_url := true }).map
      (fun r => r.frames.map (fun fr => fr.in_memory_bytes)) = [[[137, 80]]] ∧
    (process_arg c6w_penv { value := "pic.png" }).map
      (fun r => r.frames.map (fun fr => (fr.filename, fr.filename_is_temporary))) =
      [[("pic.png", false)]] := by
  have h := c6_png_passthrough c6w_penv rfl rfl rfl rfl rfl
  exact ⟨⟨rfl, rfl, rfl, rfl, rfl⟩,
    h.1 { arg := "http://x/a.png", value := "http://x/a.png", is_http_url := true }
      [137, 80] 2 3 "png" rfl rfl (by decide) (by decide) (by decide),
    h.2 { value := "pic.png" } "pic.png" 2 3 "png" rfl rfl (by decide)
      (by decide) (by decide)⟩
